import Mathlib

set_option maxRecDepth 10000

/-!
Shallow embedding of the extraction → normalization → persistence pipeline of the
two-voices-one-brain repository, and proofs about it.

Modelling conventions, used uniformly below:
* Python dictionaries with a fixed key set become Lean structures; a key that may be
  absent (or whose value may be None) becomes an Option field.
* Python strings are Lean Strings: len(s) is String.length (code points),
  s[:n] is String.take, len(s.encode("utf-8")) is String.utf8ByteSize.
* The remote structured store (Supabase) is external.  Its table contents are modelled
  as an explicit list of rows threaded through the save functions; insert appends,
  upsert replaces rows sharing the key or appends.  Calls that can raise (the
  connectivity-test select, the inserts) are modelled by Except-valued oracle fields:
  .error is a raised exception, .ok v is a normal return with result data v.
* datetime values are modelled at microsecond precision as integers counted from the
  Unix epoch; the external isoformat renderer is an abstract parameter iso : Int → String.
  (CPython performs the epoch conversion in float seconds; the arithmetic is modelled
  exactly, float rounding is not.)
* Local JSON persistence is modelled by the JsonFile value the call would write.
-/

/-- Python truthiness of an optional string (os.getenv result): None and "" are falsy. -/
def truthy : Option String → Bool
  | none => false
  | some s => !(s == "")

/-- Python `a or b` on optional strings: the first operand if truthy, else the second. -/
def orElsePy (a b : Option String) : Option String :=
  if truthy a then a else b

/-- Python `x or ""` applied to an optional string field. -/
def orEmpty : Option String → String
  | none => ""
  | some s => s

/-- The truncation pattern repeated at every remote-write transform in the repository:

    if len(x.encode("utf-8")) > limit:
        x = x[:limit] + "..." if len(x) > limit else x

Note that the guard tests the UTF-8 byte length while the slice counts code points. -/
def truncatePy (limit : Nat) (s : String) : String :=
  if s.utf8ByteSize > limit then
    (if s.length > limit then s.take limit ++ "..." else s)
  else s

/-- table(name).insert(rows): the store appends the rows. -/
def insertRows {ρ : Type} (table rows : List ρ) : List ρ :=
  table ++ rows

/-- One row of an upsert: replace every stored row sharing the key, else append. -/
def upsertRow {ρ κ : Type} [DecidableEq κ] (key : ρ → κ) (table : List ρ) (r : ρ) : List ρ :=
  if table.any (fun t => key t = key r) then
    table.map (fun t => if key t = key r then r else t)
  else table ++ [r]

/-- table(name).upsert(rows): row-by-row upsert over the batch. -/
def upsertRows {ρ κ : Type} [DecidableEq κ] (key : ρ → κ) (table rows : List ρ) : List ρ :=
  rows.foldl (upsertRow key) table

/-- A local fallback JSON file: its name and the records it holds. -/
structure JsonFile (α : Type) where
  filename : String
  contents : List α
deriving DecidableEq, Repr

/-- databases/helpers.py save_data_to_json (lines 58-82): writes one file named
{data_dir}/{file_prefix}{filename_prefix}_{len(data)}_{timestamp}.json holding data.
Parameter ts stands for datetime.now().strftime("%Y%m%d_%H%M%S"). -/
def save_data_to_json {α : Type} (data : List α) (filenamePiece : String)
    (dataDir : String) (filePiece : String) (ts : String) : JsonFile α :=
  { filename := dataDir ++ "/" ++ filePiece ++ filenamePiece ++ "_" ++
      toString data.length ++ "_" ++ ts ++ ".json"
    contents := data }

/-- The environment variables read by databases/helpers.py get_supabase_client,
plus the import-time flag SUPABASE_AVAILABLE. -/
structure SupaEnv where
  supabaseAvailable : Bool
  supabaseUrl : Option String
  supabaseAnonKey : Option String
  supabaseKey : Option String

/-- databases/helpers.py get_supabase_client (lines 21-55), called with a table name
by every saver.  Returns .ok true when a client is produced, .ok false on the
return-None paths (package unavailable, url or key missing), and propagates the
exception (.error) when the connectivity-test select on the table raises: that call
(line 48) is not wrapped in any try/except.  selectResult is the external select's
outcome, carrying the number of rows it found. -/
def get_supabase_client (env : SupaEnv) (selectResult : Except Unit Nat) : Except Unit Bool :=
  if env.supabaseAvailable = false then .ok false
  else if truthy env.supabaseUrl = false then .ok false
  else if truthy (orElsePy env.supabaseAnonKey env.supabaseKey) = false then .ok false
  else
    match selectResult with
    | .error e => .error e
    | .ok _ => .ok true

/-!
## Browser history (browser_history/browser_history.py)
-/

/-- One row of the urls table of Chrome's History SQLite database. -/
structure UrlRow where
  url : String
  title : Option String
  visit_count : Int
  last_visit_time : Int
deriving DecidableEq, Repr

/-- The normalized browser-history entry built by the extraction loop (lines 125-138).
The extracted dictionary has no extraction_date key; that absence is modelled by an
Option field that extraction always leaves none. -/
structure HistEntry where
  url : String
  title : String
  visit_count : Int
  timestamp : Option String
  extraction_date : Option String
deriving DecidableEq, Repr

/-- chrome_time_to_datetime (lines 42-54): 0 means never visited and maps to None;
otherwise microseconds since 1601 are shifted by the 11644473600-second epoch gap.
The resulting datetime is modelled as microseconds since the Unix epoch. -/
def chrome_time_to_datetime (chrome_time : Int) : Option Int :=
  if chrome_time = 0 then none
  else some (chrome_time - 11644473600 * 1000000)

/-- Insert one row into a list sorted by descending last_visit_time. -/
def insertVisitDesc (r : UrlRow) : List UrlRow → List UrlRow
  | [] => [r]
  | x :: xs =>
    if x.last_visit_time ≤ r.last_visit_time then r :: x :: xs
    else x :: insertVisitDesc r xs

/-- Sort rows by descending last_visit_time (the ORDER BY of the query). -/
def sortByVisitDesc : List UrlRow → List UrlRow
  | [] => []
  | x :: xs => insertVisitDesc x (sortByVisitDesc xs)

/-- The SQL query of extract_chrome_history (lines 112-117): rows of the urls table
WHERE last_visit_time > 0, ORDER BY last_visit_time DESC. -/
def bhRowsQuery (rows : List UrlRow) : List UrlRow :=
  sortByVisitDesc (rows.filter (fun r => 0 < r.last_visit_time))

/-- The per-row normalization of the extraction loop (lines 126-138): null title
becomes "", a zero (falsy) last_visit_time yields a null timestamp, otherwise the
converted datetime is rendered by the external isoformat, abstracted as iso. -/
def normalizeUrlRow (iso : Int → String) (r : UrlRow) : HistEntry :=
  { url := r.url
    title := orEmpty r.title
    visit_count := r.visit_count
    timestamp := (if r.last_visit_time ≠ 0 then chrome_time_to_datetime r.last_visit_time
      else none).map iso
    extraction_date := none }

/-- The full read phase of extract_chrome_history: query then normalize each row. -/
def processUrlRows (iso : Int → String) (rows : List UrlRow) : List HistEntry :=
  (bhRowsQuery rows).map (normalizeUrlRow iso)

/-- Whether the Chrome History file exists at its platform path. -/
structure ChromeEnv where
  historyFileExists : Bool
deriving DecidableEq, Repr

/-- The observable trace of one extract_chrome_history call (lines 88-146):
the returned value (None when the source file is absent, an exception if the
sqlite open/read on the copied file raises), whether the temporary copy was
created, and whether it was deleted before the call ended.  The code creates
the copy (lines 102-105), reads (108-120), and only then deletes (143-144),
with no try/finally: an exception during the read propagates before the
deletion statement is reached. -/
structure ExtractTrace where
  result : Except Unit (Option (List HistEntry))
  tempCreated : Bool
  tempDeleted : Bool

/-- extract_chrome_history, as a function of the file-existence environment and the
outcome readResult of opening and querying the copied database. -/
def extract_chrome_history (env : ChromeEnv) (readResult : Except Unit (List UrlRow))
    (iso : Int → String) : ExtractTrace :=
  if env.historyFileExists = false then
    { result := .ok none, tempCreated := false, tempDeleted := false }
  else
    match readResult with
    | .error e => { result := .error e, tempCreated := true, tempDeleted := false }
    | .ok rows =>
      { result := .ok (some (processUrlRows iso rows))
        tempCreated := true
        tempDeleted := true }

/-- The row shape inserted into the browser_history table (lines 73-80). -/
structure BHDbEntry where
  url : String
  title : String
  visit_count : Int
  timestamp : Option String
  browser : String
  extraction_date : String
deriving DecidableEq, Repr

/-- The per-entry transform of save_browser_history_to_supabase (lines 62-81):
truncation of url and title (entry["title"] or "" is the identity on the String
field), the browser constant, and extraction_date set to datetime.now().isoformat(),
passed in as now. -/
def bhDbEntry (now : String) (entry : HistEntry) : BHDbEntry :=
  { url := truncatePy 2000 entry.url
    title := truncatePy 500 entry.title
    visit_count := entry.visit_count
    timestamp := entry.timestamp
    browser := "Google Chrome"
    extraction_date := now }

/-- External behaviour of the store client for the browser_history saver: the
connectivity-test select outcome and, per submitted row list, the insert outcome
(result.data on normal return, .error for a raised exception). -/
structure BHStore where
  selectResult : Except Unit Nat
  insertResult : List BHDbEntry → Except Unit (List BHDbEntry)

/-- save_browser_history_to_supabase (lines 57-85): transforms every entry and issues
one insert.  Returns the insert outcome and the submitted rows. -/
def save_browser_history_to_supabase (st : BHStore) (now : String)
    (history_entries : List HistEntry) : Except Unit (List BHDbEntry) × List BHDbEntry :=
  let db_entries := history_entries.map (bhDbEntry now)
  (st.insertResult db_entries, db_entries)

/-- The reported outcome of one browser-history save run. -/
inductive BHOutcome where
  | remote (savedCount : Nat)
  | localFile (f : JsonFile HistEntry)
deriving DecidableEq, Repr

/-- save_browser_history_data (lines 149-167): remote save when a client is
configured, falling back to a failed_-prefixed JSON file when the insert returns
no data, plain JSON file when unconfigured.  Exceptions raised by the client
(connectivity select, insert) are not caught anywhere in the function and
propagate to the caller. -/
def save_browser_history_data (env : SupaEnv) (st : BHStore) (now ts : String)
    (history_entries : List HistEntry) : Except Unit BHOutcome :=
  match get_supabase_client env st.selectResult with
  | .error e => .error e
  | .ok false =>
    .ok (.localFile (save_data_to_json history_entries "chrome_history"
      "browser_history/data" "" ts))
  | .ok true =>
    match (save_browser_history_to_supabase st now history_entries).1 with
    | .error e => .error e
    | .ok data =>
      if data.isEmpty then
        .ok (.localFile (save_data_to_json history_entries "chrome_history"
          "browser_history/data" "failed_" ts))
      else .ok (.remote data.length)

/-!
## Calendar (digital-self-toolkit-copy/calendar/calendars.py)
-/

/-- Attribute dictionaries of nested calendar objects (creator, organizer, attendee
elements, start/end time objects), modelled as association lists; the empty list is
Python's empty dict, which is falsy. -/
abbrev Attrs := List (String × String)

/-- The event dictionary built by extract_event_data (lines 51-71), with its
defaults already applied: summary defaults to "No title", description/location to "",
creator/organizer to {}, attendees/recurrence to []. -/
structure CalendarEvent where
  id : Option String
  status : Option String
  created : Option String
  updated : Option String
  summary : String
  description : String
  location : String
  creator : Attrs
  organizer : Attrs
  start : Attrs
  end_ : Attrs
  attendees : List Attrs
  recurrence : List String
  html_link : String
  event_type : String
deriving DecidableEq, Repr

/-- The row shape inserted into the calendar_events table (lines 97-113). -/
structure CalDbEntry where
  id : Option String
  status : Option String
  created_at : Option String
  updated_at : Option String
  summary : String
  description : String
  location : String
  creator : Option Attrs
  organizer : Option Attrs
  start_time : Attrs
  end_time : Attrs
  attendees : Option (List Attrs)
  recurrence : Option (List String)
  html_link : String
  event_type : String
deriving DecidableEq, Repr

/-- The per-event transform of save_calendar_events_to_supabase (lines 79-113):
truncation of description/summary/location (the leading `or ""` is the identity on
these String fields), and falsy nested objects (empty dict or list) stored as null. -/
def calDbEntry (event : CalendarEvent) : CalDbEntry :=
  { id := event.id
    status := event.status
    created_at := event.created
    updated_at := event.updated
    summary := truncatePy 500 event.summary
    description := truncatePy 1000 event.description
    location := truncatePy 500 event.location
    creator := if event.creator.isEmpty then none else some event.creator
    organizer := if event.organizer.isEmpty then none else some event.organizer
    start_time := event.start
    end_time := event.end_
    attendees := if event.attendees.isEmpty then none else some event.attendees
    recurrence := if event.recurrence.isEmpty then none else some event.recurrence
    html_link := event.html_link
    event_type := event.event_type }

/-- save_calendar_events_to_supabase (lines 74-118): transforms the batch and issues
a single table("calendar_events").insert(db_entries).  Modelled on the table state:
returns the new table contents and the submitted rows. -/
def save_calendar_events_to_supabase (table : List CalDbEntry)
    (calendar_events : List CalendarEvent) : List CalDbEntry × List CalDbEntry :=
  let db_entries := calendar_events.map calDbEntry
  (insertRows table db_entries, db_entries)

/-!
## Gmail (digital-self-toolkit-copy/gmail/gmail.py)
-/

/-- One node of the Gmail payload part tree: its mimeType (get with default ""),
the optional body.data payload, and the optional nested parts list. -/
inductive GPart : Type where
  | mk (mimeType : String) (bodyData : Option String) (parts : Option (List GPart)) : GPart

/-- The body_data accumulator of extract_email_data (line 152). -/
structure BodyData where
  text : String
  html : String
deriving DecidableEq, Repr

/-- decode_email_content (lines 99-107): base64-urlsafe-decode then utf-8 decode,
falling back to the raw encoded string when either raises.  The external library
decoder is abstracted as b64 : String → Option String, none meaning it raised. -/
def decode_email_content (b64 : String → Option String) (data : String) : String :=
  match b64 data with
  | some s => s
  | none => data

mutual
/-- One iteration of the extract_parts loop body (lines 155-164): a text/plain part
with data overwrites body_data["text"], a text/html part with data overwrites
body_data["html"], and otherwise a part carrying nested parts is recursed into. -/
def extract_part (b64 : String → Option String) (bd : BodyData) : GPart → BodyData
  | .mk mt d ps =>
    if mt = "text/plain" then
      match d with
      | some data => { bd with text := decode_email_content b64 data }
      | none => bd
    else if mt = "text/html" then
      match d with
      | some data => { bd with html := decode_email_content b64 data }
      | none => bd
    else
      match ps with
      | some children => extract_parts b64 bd children
      | none => bd

/-- extract_parts (lines 154-164): fold the loop body over the part list,
threading the mutable body_data dictionary. -/
def extract_parts (b64 : String → Option String) (bd : BodyData) : List GPart → BodyData
  | [] => bd
  | p :: rest => extract_parts b64 (extract_part b64 bd p) rest
end

/-- The body-extraction dispatch of extract_email_data (lines 166-178): walk the
part tree when the payload is multipart, else read the single part's own data. -/
def extract_body (b64 : String → Option String) (payload : GPart) : BodyData :=
  match payload with
  | .mk mt d ps =>
    match ps with
    | some parts => extract_parts b64 { text := "", html := "" } parts
    | none =>
      if mt = "text/plain" then
        match d with
        | some data => { text := decode_email_content b64 data, html := "" }
        | none => { text := "", html := "" }
      else if mt = "text/html" then
        match d with
        | some data => { text := "", html := decode_email_content b64 data }
        | none => { text := "", html := "" }
      else { text := "", html := "" }

/-- The email dictionary assembled by extract_email_data plus the saved_at stamp
added in get_recent_emails (line 217). -/
structure EmailMessage where
  id : String
  thread_id : String
  label_ids : List String
  snippet : String
  history_id : Option String
  internal_date : Option Int
  headers : List (String × String)
  mime_type : String
  body : BodyData
  saved_at : String
deriving DecidableEq, Repr

/-- The row shape inserted into the gmail_emails table (lines 21-35). -/
structure EmailDbRow where
  id : String
  thread_id : String
  label_ids : List String
  snippet : String
  history_id : Option String
  internal_date : Option Int
  headers : List (String × String)
  mime_type : String
  body_text : String
  body_html : String
  saved_at : String
deriving DecidableEq, Repr

/-- The field mapping of save_email_to_supabase (lines 21-35); internal_date is
already held as an integer here, so the int() coercion is the identity and a falsy
(absent) value stays null. -/
def emailDbRow (email_data : EmailMessage) : EmailDbRow :=
  { id := email_data.id
    thread_id := email_data.thread_id
    label_ids := email_data.label_ids
    snippet := email_data.snippet
    history_id := email_data.history_id
    internal_date := email_data.internal_date
    headers := email_data.headers
    mime_type := email_data.mime_type
    body_text := email_data.body.text
    body_html := email_data.body.html
    saved_at := email_data.saved_at }

/-- save_email_to_supabase (lines 17-38): one table("gmail_emails").insert(db_email)
per message.  Modelled on the table state: returns the new table contents and the
submitted row. -/
def save_email_to_supabase (table : List EmailDbRow) (email_data : EmailMessage) :
    List EmailDbRow × EmailDbRow :=
  let db_email := emailDbRow email_data
  (insertRows table [db_email], db_email)

/-!
## iMessage (digital-self-toolkit-copy/imessage/imessage.py)
-/

/-- One structured message built by extract_imessage_data (lines 84-94); every
field is defaulted there, so all are plain values. -/
structure IMessage where
  contact : String
  text : String
  service : String
  account : String
  is_from_me : Bool
  timestamp : String
deriving DecidableEq, Repr

/-- The row shape inserted into the imessages table (lines 41-48). -/
structure IMessageDbRow where
  contact : String
  text : String
  service : String
  account : String
  is_from_me : Bool
  timestamp : String
deriving DecidableEq, Repr

/-- The per-message transform of save_imessages_to_supabase (lines 30-49):
truncation of text and contact (the leading `or ""` is the identity on these
String fields). -/
def imessageDbRow (msg : IMessage) : IMessageDbRow :=
  { contact := truncatePy 500 msg.contact
    text := truncatePy 1000 msg.text
    service := msg.service
    account := msg.account
    is_from_me := msg.is_from_me
    timestamp := msg.timestamp }

/-- External behaviour of the store client for the imessages saver. -/
structure IMStore where
  selectResult : Except Unit Nat
  insertResult : List IMessageDbRow → Except Unit (List IMessageDbRow)

/-- save_imessages_to_supabase (lines 19-53): caps the batch to the first 100
messages (line 23), transforms them, and issues one insert.  Returns the insert
outcome and the submitted rows. -/
def save_imessages_to_supabase (st : IMStore) (imessages : List IMessage) :
    Except Unit (List IMessageDbRow) × List IMessageDbRow :=
  let limited_messages := imessages.take 100
  let db_entries := limited_messages.map imessageDbRow
  (st.insertResult db_entries, db_entries)

/-- The reported outcome of one imessages save run. -/
inductive IMOutcome where
  | remote (savedCount : Nat)
  | localFile (f : JsonFile IMessage)
deriving DecidableEq, Repr

/-- save_imessages_data (lines 99-113): remote save when a client is configured,
falling back to a failed_-prefixed JSON file holding the FULL message list when the
insert returns no data, plain JSON file of the full list when unconfigured. -/
def save_imessages_data (env : SupaEnv) (st : IMStore) (ts : String)
    (imessages : List IMessage) : Except Unit IMOutcome :=
  match get_supabase_client env st.selectResult with
  | .error e => .error e
  | .ok false =>
    .ok (.localFile (save_data_to_json imessages "imessages" "imessage/data" "" ts))
  | .ok true =>
    match (save_imessages_to_supabase st imessages).1 with
    | .error e => .error e
    | .ok data =>
      if data.isEmpty then
        .ok (.localFile (save_data_to_json imessages "imessages" "imessage/data" "failed_" ts))
      else .ok (.remote data.length)

/-!
## WhatsApp (digital-self-toolkit-copy/whatsapp/upload_whatsapp.py)
-/

/-- One message loaded from the externally-produced JSON export; every field is
read with msg.get, so all are optional. -/
structure WhatsAppMessage where
  id : Option String
  timestamp : Option String
  from_jid : Option String
  from_name : Option String
  chat_jid : Option String
  chat_name : Option String
  message_type : Option String
  text : Option String
  is_from_me : Option Bool
  is_group : Option Bool
deriving DecidableEq, Repr

/-- The row shape upserted into the whatsapp_messages table (lines 38-49). -/
structure WhatsAppDbRow where
  id : Option String
  timestamp : Option String
  from_jid : Option String
  from_name : String
  chat_jid : Option String
  chat_name : String
  message_type : Option String
  text : String
  is_from_me : Bool
  is_group : Bool
deriving DecidableEq, Repr

/-- The per-message transform of save_whatsapp_messages_to_supabase (lines 23-50):
msg.get(k, "") or "" collapses an absent or null field to "", then the usual
truncation; booleans default to False. -/
def whatsappDbRow (msg : WhatsAppMessage) : WhatsAppDbRow :=
  { id := msg.id
    timestamp := msg.timestamp
    from_jid := msg.from_jid
    from_name := truncatePy 500 (orEmpty msg.from_name)
    chat_jid := msg.chat_jid
    chat_name := truncatePy 500 (orEmpty msg.chat_name)
    message_type := msg.message_type
    text := truncatePy 1000 (orEmpty msg.text)
    is_from_me := msg.is_from_me.getD false
    is_group := msg.is_group.getD false }

/-- The seen_ids loop of save_whatsapp_messages_to_supabase (lines 52-58): keep the
first occurrence of each id. -/
def dedupByIdGo (seen : List (Option String)) : List WhatsAppDbRow → List WhatsAppDbRow
  | [] => []
  | e :: rest =>
    if e.id ∈ seen then dedupByIdGo seen rest
    else e :: dedupByIdGo (e.id :: seen) rest

/-- In-batch deduplication by id, first-seen wins. -/
def dedupById (db_entries : List WhatsAppDbRow) : List WhatsAppDbRow :=
  dedupByIdGo [] db_entries

/-- save_whatsapp_messages_to_supabase (lines 18-66): transform, deduplicate within
the batch by id, then one table("whatsapp_messages").upsert(unique_entries).
Modelled on the table state keyed by the id column: returns the new table contents
and the submitted rows. -/
def save_whatsapp_messages_to_supabase (table : List WhatsAppDbRow)
    (whatsapp_messages : List WhatsAppMessage) : List WhatsAppDbRow × List WhatsAppDbRow :=
  let db_entries := whatsapp_messages.map whatsappDbRow
  let unique_entries := dedupById db_entries
  (upsertRows (fun r => r.id) table unique_entries, unique_entries)

/-!
## Helper lemmas about the store semantics
-/

theorem length_upsertRow {ρ κ : Type} [DecidableEq κ] (key : ρ → κ) (table : List ρ) (r : ρ) :
    (upsertRow key table r).length =
      if table.any (fun t => key t = key r) then table.length else table.length + 1 := by
  unfold upsertRow
  by_cases h : table.any (fun t => key t = key r) <;> simp [h]

theorem any_key_upsertRow {ρ κ : Type} [DecidableEq κ] (key : ρ → κ) (table : List ρ)
    (r : ρ) (k : κ) (h : table.any (fun t => key t = k) = true) :
    (upsertRow key table r).any (fun t => key t = k) = true := by
  unfold upsertRow
  simp only [List.any_eq_true, decide_eq_true_eq] at h
  obtain ⟨t, ht, hk⟩ := h
  by_cases hc : table.any (fun t => key t = key r)
  · rw [if_pos hc]
    simp only [List.any_map, List.any_eq_true, Function.comp_apply, decide_eq_true_eq]
    refine ⟨t, ht, ?_⟩
    by_cases h2 : key t = key r
    · rw [if_pos h2, ← h2]
      exact hk
    · rw [if_neg h2]
      exact hk
  · rw [if_neg hc]
    simp only [List.any_append, List.any_eq_true, decide_eq_true_eq, Bool.or_eq_true]
    exact Or.inl ⟨t, ht, hk⟩

theorem any_key_upsertRow_self {ρ κ : Type} [DecidableEq κ] (key : ρ → κ)
    (table : List ρ) (r : ρ) :
    (upsertRow key table r).any (fun t => key t = key r) = true := by
  unfold upsertRow
  by_cases hc : table.any (fun t => key t = key r)
  · rw [if_pos hc]
    simp only [List.any_map, List.any_eq_true, Function.comp_apply, decide_eq_true_eq]
    have hc' := hc
    simp only [List.any_eq_true, decide_eq_true_eq] at hc'
    obtain ⟨t, ht, hk⟩ := hc'
    exact ⟨t, ht, by rw [if_pos hk]⟩
  · rw [if_neg hc]
    simp

theorem any_key_upsertRows {ρ κ : Type} [DecidableEq κ] (key : ρ → κ) (table : List ρ)
    (rows : List ρ) (k : κ) (h : table.any (fun t => key t = k) = true) :
    (upsertRows key table rows).any (fun t => key t = k) = true := by
  induction rows generalizing table with
  | nil => simpa [upsertRows] using h
  | cons x rest ih =>
    show (upsertRows key (upsertRow key table x) rest).any (fun t => key t = k) = true
    exact ih (upsertRow key table x) (any_key_upsertRow key table x k h)

theorem any_key_upsertRows_mem {ρ κ : Type} [DecidableEq κ] (key : ρ → κ)
    (table : List ρ) (rows : List ρ) (r : ρ) (hr : r ∈ rows) :
    (upsertRows key table rows).any (fun t => key t = key r) = true := by
  induction rows generalizing table with
  | nil => cases hr
  | cons x rest ih =>
    show (upsertRows key (upsertRow key table x) rest).any (fun t => key t = key r) = true
    rcases List.mem_cons.mp hr with heq | hmem
    · subst heq
      exact any_key_upsertRows key _ rest _ (any_key_upsertRow_self key table r)
    · exact ih (upsertRow key table x) hmem

theorem length_upsertRows_all_present {ρ κ : Type} [DecidableEq κ] (key : ρ → κ)
    (table : List ρ) (rows : List ρ)
    (h : ∀ r ∈ rows, table.any (fun t => key t = key r) = true) :
    (upsertRows key table rows).length = table.length := by
  induction rows generalizing table with
  | nil => simp [upsertRows]
  | cons x rest ih =>
    show (upsertRows key (upsertRow key table x) rest).length = table.length
    have hx : table.any (fun t => key t = key x) = true := h x (List.mem_cons_self x rest)
    have hlen : (upsertRow key table x).length = table.length := by
      rw [length_upsertRow, if_pos hx]
    rw [ih (upsertRow key table x)
      (fun r hr => any_key_upsertRow key table x (key r) (h r (List.mem_cons_of_mem x hr)))]
    exact hlen

theorem length_upsertRows_idem {ρ κ : Type} [DecidableEq κ] (key : ρ → κ)
    (table : List ρ) (rows : List ρ) :
    (upsertRows key (upsertRows key table rows) rows).length =
      (upsertRows key table rows).length :=
  length_upsertRows_all_present key (upsertRows key table rows) rows
    (fun r hr => any_key_upsertRows_mem key table rows r hr)

/-!
## Helper lemmas about the browser-history sort
-/

theorem perm_insertVisitDesc (r : UrlRow) (l : List UrlRow) :
    (insertVisitDesc r l).Perm (r :: l) := by
  induction l with
  | nil => simp [insertVisitDesc]
  | cons x xs ih =>
    unfold insertVisitDesc
    by_cases h : x.last_visit_time ≤ r.last_visit_time
    · simp [h]
    · simp only [h, if_false]
      exact ((ih.cons x).trans (List.Perm.swap r x xs))

theorem perm_sortByVisitDesc (l : List UrlRow) : (sortByVisitDesc l).Perm l := by
  induction l with
  | nil => simp [sortByVisitDesc]
  | cons x xs ih =>
    unfold sortByVisitDesc
    exact (perm_insertVisitDesc x (sortByVisitDesc xs)).trans (ih.cons x)

theorem pairwise_insertVisitDesc (r : UrlRow) (l : List UrlRow)
    (h : l.Pairwise (fun a b => b.last_visit_time ≤ a.last_visit_time)) :
    (insertVisitDesc r l).Pairwise (fun a b => b.last_visit_time ≤ a.last_visit_time) := by
  induction l with
  | nil => simp [insertVisitDesc]
  | cons x xs ih =>
    rcases List.pairwise_cons.mp h with ⟨hx, hxs⟩
    unfold insertVisitDesc
    by_cases hc : x.last_visit_time ≤ r.last_visit_time
    · simp only [hc, if_true]
      refine List.pairwise_cons.mpr ⟨?_, h⟩
      intro y hy
      rcases List.mem_cons.mp hy with heq | hmem
      · subst heq; exact hc
      · exact le_trans (hx y hmem) hc
    · simp only [hc, if_false]
      refine List.pairwise_cons.mpr ⟨?_, ih hxs⟩
      intro y hy
      have hy' := (perm_insertVisitDesc r xs).mem_iff.mp hy
      rcases List.mem_cons.mp hy' with heq | hmem
      · subst heq
        exact le_of_lt (lt_of_not_le hc)
      · exact hx y hmem

theorem pairwise_sortByVisitDesc (l : List UrlRow) :
    (sortByVisitDesc l).Pairwise (fun a b => b.last_visit_time ≤ a.last_visit_time) := by
  induction l with
  | nil => simp [sortByVisitDesc]
  | cons x xs ih =>
    exact pairwise_insertVisitDesc x (sortByVisitDesc xs) ih

/-!
## Helper lemmas about the email part walk
-/

mutual
/-- The body.data payloads of the text/plain parts a walk of this part would
consult, in walk order (parts nested inside a text/plain or text/html part are
not visited, mirroring the elif chain). -/
def plainOfPart : GPart → List String
  | .mk mt d ps =>
    if mt = "text/plain" then (match d with | some x => [x] | none => [])
    else if mt = "text/html" then []
    else match ps with | some cs => plainOfParts cs | none => []

/-- The text/plain payloads of a part list, in walk order. -/
def plainOfParts : List GPart → List String
  | [] => []
  | p :: rest => plainOfPart p ++ plainOfParts rest
end

mutual
/-- The body.data payloads of the text/html parts a walk of this part would
consult, in walk order. -/
def htmlOfPart : GPart → List String
  | .mk mt d ps =>
    if mt = "text/plain" then []
    else if mt = "text/html" then (match d with | some x => [x] | none => [])
    else match ps with | some cs => htmlOfParts cs | none => []

/-- The text/html payloads of a part list, in walk order. -/
def htmlOfParts : List GPart → List String
  | [] => []
  | p :: rest => htmlOfPart p ++ htmlOfParts rest
end

/-- Folding repeated overwrites of one body_data slot: only the last write survives. -/
def lastWins (b64 : String → Option String) (leaves : List String) (a : String) : String :=
  leaves.foldl (fun _ x => decode_email_content b64 x) a

theorem lastWins_append (b64 : String → Option String) (xs ys : List String) (a : String) :
    lastWins b64 (xs ++ ys) a = lastWins b64 ys (lastWins b64 xs a) := by
  simp [lastWins, List.foldl_append]

theorem extract_mutual_lastWins (b64 : String → Option String) :
    (∀ (bd : BodyData) (p : GPart), extract_part b64 bd p =
      ⟨lastWins b64 (plainOfPart p) bd.text, lastWins b64 (htmlOfPart p) bd.html⟩) ∧
    (∀ (bd : BodyData) (l : List GPart), extract_parts b64 bd l =
      ⟨lastWins b64 (plainOfParts l) bd.text, lastWins b64 (htmlOfParts l) bd.html⟩) := by
  refine extract_part.mutual_induct b64
    (fun bd p => extract_part b64 bd p =
      ⟨lastWins b64 (plainOfPart p) bd.text, lastWins b64 (htmlOfPart p) bd.html⟩)
    (fun bd l => extract_parts b64 bd l =
      ⟨lastWins b64 (plainOfParts l) bd.text, lastWins b64 (htmlOfParts l) bd.html⟩)
    ?_ ?_ ?_ ?_ ?_ ?_ ?_ ?_
  · intro bd ps s
    simp [extract_part, plainOfPart, htmlOfPart, lastWins]
  · intro bd ps
    simp [extract_part, plainOfPart, htmlOfPart, lastWins]
  · intro bd ps s h
    simp [extract_part, plainOfPart, htmlOfPart, lastWins]
  · intro bd ps h
    simp [extract_part, plainOfPart, htmlOfPart, lastWins]
  · intro bd mt d h1 h2 children ih
    simpa [extract_part, plainOfPart, htmlOfPart, h1, h2] using ih
  · intro bd mt d h1 h2
    simp [extract_part, plainOfPart, htmlOfPart, h1, h2, lastWins]
  · intro bd
    simp [extract_parts, plainOfParts, htmlOfParts, lastWins]
  · intro bd p rest ihp ihr
    rw [extract_parts, ihr, ihp]
    simp [plainOfParts, htmlOfParts, lastWins_append]

theorem lastWins_getLast (b64 : String → Option String) (l : List String) (a : String) :
    lastWins b64 l a = (match l.getLast? with
      | some x => decode_email_content b64 x
      | none => a) := by
  induction l generalizing a with
  | nil => simp [lastWins]
  | cons x xs ih =>
    cases xs with
    | nil => simp [lastWins]
    | cons y ys =>
      have step : lastWins b64 (x :: y :: ys) a
          = lastWins b64 (y :: ys) (decode_email_content b64 x) := by
        simp [lastWins]
      rw [step, ih]
      cases h : (y :: ys).getLast? with
      | some z => simp [List.getLast?_cons_cons, h]
      | none => simp [List.getLast?_eq_none_iff] at h

/-!
## Helper lemma about the truncation pattern
-/

/-- What one sanitized field can be: either passed through unchanged, or (exactly
when both the byte length and the code-point length exceed the limit) replaced by
its limit-length code-point prefix with the ellipsis marker appended. -/
def truncOutcome (limit : Nat) (orig out : String) : Prop :=
  out = orig ∨
    (limit < orig.utf8ByteSize ∧ limit < orig.length ∧ out = orig.take limit ++ "...")

theorem truncatePy_outcome (limit : Nat) (s : String) :
    truncOutcome limit s (truncatePy limit s) := by
  unfold truncOutcome truncatePy
  by_cases h1 : s.utf8ByteSize > limit
  · by_cases h2 : s.length > limit
    · exact Or.inr ⟨h1, h2, by simp [h1, h2]⟩
    · simp [h1, h2]
  · simp [h1]

/-!
## Shared concrete fixtures used by witnesses and counterexamples
-/

/-- An environment with both remote credentials present. -/
def envFullCreds : SupaEnv :=
  { supabaseAvailable := true, supabaseUrl := some "https://proj.supabase.co",
    supabaseAnonKey := some "anon-key", supabaseKey := none }

/-- An environment with no remote credentials configured. -/
def envNoCreds : SupaEnv :=
  { supabaseAvailable := true, supabaseUrl := none, supabaseAnonKey := none,
    supabaseKey := none }

/-- A browser-history store client whose calls all return normally. -/
def bhStoreOk : BHStore :=
  { selectResult := .ok 0, insertResult := fun db => .ok db }

/-- An imessages store client whose calls all return normally. -/
def imStoreOk : IMStore :=
  { selectResult := .ok 0, insertResult := fun db => .ok db }

/-- A sample extracted device-local message. -/
def imsgSample : IMessage :=
  { contact := "alice", text := "hello", service := "iMessage", account := "me@x",
    is_from_me := false, timestamp := "2024-05-01 10:00:00" }

/-- A sample calendar event with identifier evt-1. -/
def calEventSample : CalendarEvent :=
  { id := some "evt-1", status := some "confirmed", created := some "2024-01-01",
    updated := some "2024-01-02", summary := "standup", description := "daily sync",
    location := "hq", creator := [("email", "a@b.c")], organizer := [],
    start := [("dateTime", "2024-01-03T09:00:00Z")],
    end_ := [("dateTime", "2024-01-03T09:15:00Z")],
    attendees := [], recurrence := [], html_link := "https://cal/evt-1",
    event_type := "default" }

/-!
## C1
-/

/-- C1 counterexample: calendar events are persisted with a plain insert, not
upsert-by-key — persisting the same one-event batch twice leaves two rows in the
store where persisting it once leaves one, so the row counts differ. -/
theorem calendar_persist_twice_duplicates :
    (save_calendar_events_to_supabase
        (save_calendar_events_to_supabase [] [calEventSample]).1 [calEventSample]).1.length = 2 ∧
    (save_calendar_events_to_supabase [] [calEventSample]).1.length = 1 ∧
    (2 : Nat) ≠ 1 := by
  refine ⟨rfl, rfl, by decide⟩

/-- C1 amended: of the three sources the claim names, only the externally-produced
(WhatsApp) messages are persisted by upsert-by-key, and for them persisting the same
batch twice yields the same row count in the store as persisting it once; calendar
events and email messages are persisted with plain inserts, which grow the table by
the batch size on every repeated run. -/
theorem persistence_modes_row_counts :
    ∀ (tableW : List WhatsAppDbRow) (msgs : List WhatsAppMessage)
      (tableC : List CalDbEntry) (events : List CalendarEvent)
      (tableE : List EmailDbRow) (email_data : EmailMessage),
    (save_whatsapp_messages_to_supabase
        (save_whatsapp_messages_to_supabase tableW msgs).1 msgs).1.length
      = (save_whatsapp_messages_to_supabase tableW msgs).1.length ∧
    (save_calendar_events_to_supabase tableC events).1.length
      = tableC.length + events.length ∧
    (save_email_to_supabase tableE email_data).1.length = tableE.length + 1 := by
  intro tableW msgs tableC events tableE email_data
  refine ⟨?_, ?_, ?_⟩
  · exact length_upsertRows_idem (fun r => r.id) tableW (dedupById (msgs.map whatsappDbRow))
  · simp [save_calendar_events_to_supabase, insertRows]
  · simp [save_email_to_supabase, insertRows]

/-!
## C2
-/

/-- C2 counterexample: a 300-character title of two-byte characters is 600 UTF-8
bytes, above the 500-byte limit, yet the sanitizer passes it through unchanged
(and without any ellipsis marker) because its code-point length is within the
limit — the claimed byte bound does not hold after sanitization. -/
theorem sanitized_title_exceeds_byte_limit :
    500 < ((bhDbEntry "2024-01-01T00:00:00"
      { url := "https://example.com", title := String.mk (List.replicate 300 'é'),
        visit_count := 1, timestamp := none, extraction_date := none }).title).utf8ByteSize ∧
    (bhDbEntry "2024-01-01T00:00:00"
      { url := "https://example.com", title := String.mk (List.replicate 300 'é'),
        visit_count := 1, timestamp := none, extraction_date := none }).title
      = String.mk (List.replicate 300 'é') := by
  constructor
  · decide
  · decide

/-- C2 amended: every size-bounded field of a sanitized record is either passed
through unchanged, or — exactly when both its UTF-8 byte length and its code-point
length exceed the limit — replaced by its limit-length code-point prefix with the
"..." marker appended (so every cut field ends with the marker).  The UTF-8 byte
bound itself does not hold: an uncut multi-byte field may exceed the byte limit,
and a cut field has limit+3 code points. -/
theorem sanitized_fields_trunc_outcome :
    ∀ (now : String) (entry : HistEntry) (event : CalendarEvent) (msg : IMessage)
      (w : WhatsAppMessage),
    truncOutcome 2000 entry.url (bhDbEntry now entry).url ∧
    truncOutcome 500 entry.title (bhDbEntry now entry).title ∧
    truncOutcome 500 event.summary (calDbEntry event).summary ∧
    truncOutcome 1000 event.description (calDbEntry event).description ∧
    truncOutcome 500 event.location (calDbEntry event).location ∧
    truncOutcome 500 msg.contact (imessageDbRow msg).contact ∧
    truncOutcome 1000 msg.text (imessageDbRow msg).text ∧
    truncOutcome 500 (orEmpty w.from_name) (whatsappDbRow w).from_name ∧
    truncOutcome 500 (orEmpty w.chat_name) (whatsappDbRow w).chat_name ∧
    truncOutcome 1000 (orEmpty w.text) (whatsappDbRow w).text := by
  intro now entry event msg w
  exact ⟨truncatePy_outcome 2000 entry.url, truncatePy_outcome 500 entry.title,
    truncatePy_outcome 500 event.summary, truncatePy_outcome 1000 event.description,
    truncatePy_outcome 500 event.location, truncatePy_outcome 500 msg.contact,
    truncatePy_outcome 1000 msg.text, truncatePy_outcome 500 (orEmpty w.from_name),
    truncatePy_outcome 500 (orEmpty w.chat_name), truncatePy_outcome 1000 (orEmpty w.text)⟩

/-!
## C3
-/

/-- C3 counterexample: with two text/plain parts in the walked list, body.text ends
up holding the decoded content of the SECOND part, not the first — the first match
is overwritten, contradicting first-match-wins. -/
theorem extract_parts_second_plain_wins :
    (extract_parts (fun s => some s) { text := "", html := "" }
      [.mk "text/plain" (some "first") none, .mk "text/plain" (some "second") none]).text
      = decode_email_content (fun s => some s) "second" ∧
    decode_email_content (fun s => some s) "second"
      ≠ decode_email_content (fun s => some s) "first" := by
  constructor
  · decide
  · decide

/-- C3 amended: for every part list, the recursive depth-first walk leaves in
body.text the decoded content of the LAST text/plain part carrying data that the
walk encounters, and in body.html that of the last such text/html part; earlier
matching parts are silently overwritten. -/
theorem extract_parts_last_match_wins :
    ∀ (b64 : String → Option String) (bd : BodyData) (parts : List GPart),
    extract_parts b64 bd parts =
      { text := match (plainOfParts parts).getLast? with
          | some data => decode_email_content b64 data
          | none => bd.text
        html := match (htmlOfParts parts).getLast? with
          | some data => decode_email_content b64 data
          | none => bd.html } := by
  intro b64 bd parts
  rw [(extract_mutual_lastWins b64).2 bd parts, lastWins_getLast, lastWins_getLast]

/-!
## C4
-/

/-- When the connectivity-test select returns normally, get_supabase_client cannot
raise: every return path yields an answer. -/
theorem get_supabase_client_ok (env : SupaEnv) (n : Nat) :
    ∃ b, get_supabase_client env (.ok n) = .ok b := by
  unfold get_supabase_client
  by_cases h1 : env.supabaseAvailable = false
  · exact ⟨false, by simp [h1]⟩
  · by_cases h2 : truthy env.supabaseUrl = false
    · exact ⟨false, by simp [h1, h2]⟩
    · by_cases h3 : truthy (orElsePy env.supabaseAnonKey env.supabaseKey) = false
      · exact ⟨false, by simp [h1, h2, h3]⟩
      · exact ⟨true, by simp [h1, h2, h3]⟩

/-- C4 counterexample: when the connectivity-test select raises, the exception
propagates out of save_browser_history_data to the external caller — the run ends
with no outcome report, contradicting never-raises-past-the-boundary. -/
theorem browser_save_propagates_select_exception :
    save_browser_history_data envFullCreds
      { selectResult := .error (), insertResult := fun db => .ok db }
      "NOW" "TS"
      [{ url := "https://a", title := "a", visit_count := 1, timestamp := none,
         extraction_date := none }]
      = .error () := rfl

/-- C4 amended: save_browser_history_data terminates with an explicit outcome
(remote count, or local file) whenever the store client's select and insert calls
return normally — including when the store rejects the write by returning no rows,
which is handled by the local fallback; but an exception raised by the client (the
uncaught connectivity-test select or the uncaught insert) propagates past the
persistence layer to the external caller. -/
theorem browser_save_ok_when_client_returns :
    ∀ (env : SupaEnv) (st : BHStore) (now ts : String) (entries : List HistEntry),
    (∃ n, st.selectResult = .ok n) →
    (∀ db, ∃ rows, st.insertResult db = .ok rows) →
    ∃ o : BHOutcome, save_browser_history_data env st now ts entries = .ok o := by
  intro env st now ts entries hsel hins
  obtain ⟨n, hn⟩ := hsel
  obtain ⟨b, hb⟩ := get_supabase_client_ok env n
  unfold save_browser_history_data
  rw [hn, hb]
  cases b with
  | false =>
    exact ⟨_, rfl⟩
  | true =>
    obtain ⟨rows, hrows⟩ := hins (entries.map (bhDbEntry now))
    refine ⟨if rows.isEmpty then
        BHOutcome.localFile (save_data_to_json entries "chrome_history"
          "browser_history/data" "failed_" ts)
      else BHOutcome.remote rows.length, ?_⟩
    unfold save_browser_history_to_supabase
    simp only [hrows]
    by_cases hd : rows.isEmpty <;> simp [hd]

/-- C4 witness: a concrete run on a client whose calls return normally ends with an
explicit outcome. -/
theorem browser_save_ok_when_client_returns_witness :
    (∃ n, bhStoreOk.selectResult = .ok n) ∧
    ∃ o : BHOutcome,
      save_browser_history_data envFullCreds bhStoreOk "NOW" "TS" [] = .ok o :=
  ⟨⟨0, rfl⟩, browser_save_ok_when_client_returns envFullCreds bhStoreOk "NOW" "TS" []
    ⟨0, rfl⟩ (fun db => ⟨db, rfl⟩)⟩

/-!
## C5
-/

/-- The UTF-8 byte size of a replicated character scales linearly. -/
theorem utf8ByteSize_go_replicate (c : Char) (n : Nat) :
    String.utf8ByteSize.go (List.replicate n c) = n * c.utf8Size := by
  induction n with
  | zero => simp [List.replicate, String.utf8ByteSize.go]
  | succ k ih =>
    rw [List.replicate_succ]
    simp only [String.utf8ByteSize.go, ih]
    ring

/-- The code-point length of a code-point-prefix take. -/
theorem string_length_take (s : String) (n : Nat) : (s.take n).length = min n s.length := by
  have h1 : (s.take n).length = (s.take n).data.length := rfl
  have h2 : s.length = s.data.length := rfl
  rw [h1, String.data_take, List.length_take, h2]

/-- A history entry whose title is 600 ASCII characters, above the 500-byte limit. -/
def longTitleEntry : HistEntry :=
  { url := "https://example.com", title := String.mk (List.replicate 600 'a'),
    visit_count := 1, timestamp := none, extraction_date := none }

/-- C5 counterexample: with no credentials configured, the local file holds the raw
batch exactly as passed in, not the sanitized batch — the oversized url is written
unchanged, while the remote-path sanitizer would have truncated it. -/
theorem local_file_holds_unsanitized_batch :
    save_browser_history_data envNoCreds bhStoreOk "NOW" "TS" [longTitleEntry]
      = .ok (.localFile
          { filename := "browser_history/data/chrome_history_1_TS.json",
            contents := [longTitleEntry] }) ∧
    (bhDbEntry "NOW" longTitleEntry).title ≠ longTitleEntry.title := by
  constructor
  · rfl
  · have hlen : longTitleEntry.title.length = 600 := by
      show (String.mk (List.replicate 600 'a')).length = 600
      rw [String.length_mk, List.length_replicate]
    have hbytes : longTitleEntry.title.utf8ByteSize = 600 := by
      show String.utf8ByteSize.go (List.replicate 600 'a') = 600
      rw [utf8ByteSize_go_replicate]
      rfl
    have htr : (bhDbEntry "NOW" longTitleEntry).title
        = longTitleEntry.title.take 500 ++ "..." := by
      show truncatePy 500 longTitleEntry.title = longTitleEntry.title.take 500 ++ "..."
      unfold truncatePy
      rw [hbytes, hlen]
      norm_num
    intro heq
    rw [htr] at heq
    have hlenEq := congrArg String.length heq
    rw [String.length_append, string_length_take, hlen] at hlenEq
    have h3 : ("..." : String).length = 3 := rfl
    rw [h3] at hlenEq
    omega

/-- C5 amended: with either remote credential missing from the environment,
get_supabase_client returns none and the saver writes exactly one local file, named
{directory}/{source}_{count}_{timestamp}.json with count the number of records in
the batch, holding exactly the batch as passed to the saver — which on this path is
the extracted, unsanitized batch, since truncation happens only inside the
remote-write transform. -/
theorem no_creds_single_local_file :
    ∀ (env : SupaEnv) (st : BHStore) (now ts : String) (entries : List HistEntry),
    (truthy env.supabaseUrl = false ∨
      truthy (orElsePy env.supabaseAnonKey env.supabaseKey) = false) →
    get_supabase_client env st.selectResult = .ok false ∧
    save_browser_history_data env st now ts entries
      = .ok (.localFile
          { filename := "browser_history/data" ++ "/" ++ "" ++ "chrome_history" ++ "_" ++
              toString entries.length ++ "_" ++ ts ++ ".json",
            contents := entries }) := by
  intro env st now ts entries hcreds
  have hcl : get_supabase_client env st.selectResult = .ok false := by
    unfold get_supabase_client
    by_cases h1 : env.supabaseAvailable = false
    · simp [h1]
    · rcases hcreds with h | h
      · simp [h1, h]
      · by_cases h2 : truthy env.supabaseUrl = false
        · simp [h1, h2]
        · simp [h1, h2, h]
  refine ⟨hcl, ?_⟩
  unfold save_browser_history_data
  rw [hcl]
  rfl

/-- C5 witness: a concrete credential-free run returns none from the gateway and
writes the one expected file. -/
theorem no_creds_single_local_file_witness :
    truthy envNoCreds.supabaseUrl = false ∧
    get_supabase_client envNoCreds bhStoreOk.selectResult = .ok false ∧
    save_browser_history_data envNoCreds bhStoreOk "NOW" "TS" []
      = .ok (.localFile
          { filename := "browser_history/data" ++ "/" ++ "" ++ "chrome_history" ++ "_" ++
              toString ([] : List HistEntry).length ++ "_" ++ "TS" ++ ".json",
            contents := ([] : List HistEntry) }) := by
  refine ⟨rfl, ?_, ?_⟩
  · exact (no_creds_single_local_file envNoCreds bhStoreOk "NOW" "TS" [] (Or.inl rfl)).1
  · exact (no_creds_single_local_file envNoCreds bhStoreOk "NOW" "TS" [] (Or.inl rfl)).2

/-!
## C6
-/

/-- C6 counterexample: when the sqlite open/read on the copied database raises, the
exception propagates and the temporary copy is left behind — it was created but
never deleted, contradicting deleted-regardless-of-outcome. -/
theorem temp_copy_leaked_on_read_exception :
    (extract_chrome_history { historyFileExists := true } (.error ()) (fun _ => "")).tempCreated
      = true ∧
    (extract_chrome_history { historyFileExists := true } (.error ()) (fun _ => "")).tempDeleted
      = false ∧
    (extract_chrome_history { historyFileExists := true } (.error ()) (fun _ => "")).result
      = .error () :=
  ⟨rfl, rfl, rfl⟩

/-- C6 amended: the temporary copy is created before the read and deleted before
every NORMAL return (whenever the copy was created at all); but when opening or
reading the copy raises, the exception propagates out of the call and the copy is
not deleted. -/
theorem temp_copy_deleted_only_on_normal_return :
    ∀ (env : ChromeEnv) (readResult : Except Unit (List UrlRow)) (iso : Int → String),
    (∀ v, (extract_chrome_history env readResult iso).result = .ok v →
        (extract_chrome_history env readResult iso).tempDeleted
          = (extract_chrome_history env readResult iso).tempCreated) ∧
    (∀ e, (extract_chrome_history env readResult iso).result = .error e →
        (extract_chrome_history env readResult iso).tempCreated = true ∧
        (extract_chrome_history env readResult iso).tempDeleted = false) := by
  intro env readResult iso
  unfold extract_chrome_history
  by_cases h : env.historyFileExists = false
  · simp [h]
  · rcases readResult with e | rows
    · simp [h]
    · simp [h]

/-- C6 witness: a concrete successful read deletes the temporary copy it created. -/
theorem temp_copy_deleted_witness :
    ((extract_chrome_history { historyFileExists := true } (.ok []) (fun _ => "")).result
      = .ok (some (processUrlRows (fun _ => "") []))) ∧
    (extract_chrome_history { historyFileExists := true } (.ok []) (fun _ => "")).tempDeleted
      = (extract_chrome_history { historyFileExists := true } (.ok []) (fun _ => "")).tempCreated :=
  ⟨rfl, (temp_copy_deleted_only_on_normal_return { historyFileExists := true } (.ok [])
    (fun _ => "")).1 (some (processUrlRows (fun _ => "") [])) rfl⟩

/-!
## C7
-/

/-- A sample url row with a positive last-visit time. -/
def urlRowA : UrlRow :=
  { url := "https://a", title := some "A", visit_count := 2, last_visit_time := 7 }

/-- The entry normalization produces from urlRowA under a constant iso renderer:
note the absent (none) extraction_date. -/
def histEntryA : HistEntry :=
  { url := "https://a", title := "A", visit_count := 2,
    timestamp := some "2024-05-01T00:00:00", extraction_date := none }

/-- C7 counterexample: a full credential-free run writes records whose
extraction_date is absent (none) to the local file — on the local-file path the
field is null, contradicting set-at-normalization-and-never-null on both paths. -/
theorem local_path_record_has_no_extraction_date :
    save_browser_history_data envNoCreds bhStoreOk "NOW" "TS"
        (processUrlRows (fun _ => "2024-05-01T00:00:00") [urlRowA])
      = .ok (.localFile
          { filename := "browser_history/data/chrome_history_1_TS.json",
            contents := [histEntryA] }) ∧
    histEntryA.extraction_date = none :=
  ⟨rfl, rfl⟩

/-- C7 amended: normalization leaves extraction_date unset (none) on every record
it produces; the field is attached — always non-null, set to the current time —
only by the remote-write transform, and the local-file path writes the extraction
output unchanged, so locally persisted browser-history records carry no
extraction_date. -/
theorem extraction_date_only_on_remote_transform :
    ∀ (iso : Int → String) (rows : List UrlRow) (now : String) (entry : HistEntry)
      (env : SupaEnv) (st : BHStore) (ts : String) (entries : List HistEntry)
      (f : JsonFile HistEntry),
    (∀ h ∈ processUrlRows iso rows, h.extraction_date = none) ∧
    (bhDbEntry now entry).extraction_date = now ∧
    (save_browser_history_data env st now ts entries = .ok (.localFile f) →
      f.contents = entries) := by
  intro iso rows now entry env st ts entries f
  refine ⟨?_, rfl, ?_⟩
  · intro h hmem
    unfold processUrlRows at hmem
    rcases List.mem_map.mp hmem with ⟨r, _, rfl⟩
    rfl
  · intro hsave
    unfold save_browser_history_data at hsave
    rcases hg : get_supabase_client env st.selectResult with e | b
    · rw [hg] at hsave; cases hsave
    · rw [hg] at hsave
      cases b with
      | false =>
        simp only [Except.ok.injEq, BHOutcome.localFile.injEq] at hsave
        subst hsave
        rfl
      | true =>
        rcases hi : (save_browser_history_to_supabase st now entries).1 with e | data
        · rw [hi] at hsave; cases hsave
        · rw [hi] at hsave
          by_cases hd : data.isEmpty
          · simp only [hd, if_true, Except.ok.injEq, BHOutcome.localFile.injEq] at hsave
            subst hsave
            rfl
          · simp [hd] at hsave

/-- C7 witness: the single record of a concrete run carries no extraction_date, the
remote transform stamps a concrete time, and a concrete local run writes the batch
unchanged. -/
theorem extraction_date_only_on_remote_transform_witness :
    histEntryA.extraction_date = none ∧
    (bhDbEntry "NOW" longTitleEntry).extraction_date = "NOW" ∧
    (save_data_to_json ([] : List HistEntry) "chrome_history" "browser_history/data" "" "TS").contents
      = ([] : List HistEntry) := by
  refine ⟨?_, ?_, ?_⟩
  · exact (extraction_date_only_on_remote_transform (fun _ => "2024-05-01T00:00:00")
      [urlRowA] "NOW" longTitleEntry envNoCreds bhStoreOk "TS" []
      (save_data_to_json [] "chrome_history" "browser_history/data" "" "TS")).1
      histEntryA (by decide)
  · exact (extraction_date_only_on_remote_transform (fun _ => "2024-05-01T00:00:00")
      [urlRowA] "NOW" longTitleEntry envNoCreds bhStoreOk "TS" []
      (save_data_to_json [] "chrome_history" "browser_history/data" "" "TS")).2.1
  · exact (extraction_date_only_on_remote_transform (fun _ => "2024-05-01T00:00:00")
      [urlRowA] "NOW" longTitleEntry envNoCreds bhStoreOk "TS" []
      (save_data_to_json [] "chrome_history" "browser_history/data" "" "TS")).2.2 rfl

/-!
## C8
-/

/-- C8: extraction returns exactly the url rows with positive last-visit time,
ordered most-recent-first by last-visit time (zero-time rows excluded); a raw
timestamp of zero normalizes to a null timestamp, and a nonzero raw timestamp is
shifted from the Chrome epoch (microseconds since 1601, 11644473600 seconds before
the Unix epoch) and rendered by the external ISO-8601 formatter. -/
theorem chrome_extract_filters_sorts_converts :
    ∀ (iso : Int → String) (rows : List UrlRow),
    (∃ sortedRows : List UrlRow,
        sortedRows.Perm (rows.filter (fun r => 0 < r.last_visit_time)) ∧
        sortedRows.Pairwise (fun a b => b.last_visit_time ≤ a.last_visit_time) ∧
        processUrlRows iso rows = sortedRows.map (normalizeUrlRow iso)) ∧
    (∀ env : ChromeEnv, env.historyFileExists = true →
        (extract_chrome_history env (.ok rows) iso).result
          = .ok (some (processUrlRows iso rows))) ∧
    chrome_time_to_datetime 0 = none ∧
    (∀ t : Int, t ≠ 0 → chrome_time_to_datetime t = some (t - 11644473600 * 1000000)) ∧
    (∀ r : UrlRow, r.last_visit_time ≠ 0 →
        (normalizeUrlRow iso r).timestamp
          = some (iso (r.last_visit_time - 11644473600 * 1000000))) := by
  intro iso rows
  refine ⟨⟨sortByVisitDesc (rows.filter (fun r => 0 < r.last_visit_time)),
    perm_sortByVisitDesc _, pairwise_sortByVisitDesc _, rfl⟩, ?_, rfl, ?_, ?_⟩
  · intro env henv
    unfold extract_chrome_history
    simp [henv]
  · intro t ht
    simp [chrome_time_to_datetime, ht]
  · intro r hr
    simp [normalizeUrlRow, chrome_time_to_datetime, hr]

/-- C8 witness: concrete instances of the timestamp conversion clauses and the
extraction clause, obtained from the theorem. -/
theorem chrome_extract_filters_sorts_converts_witness :
    chrome_time_to_datetime 0 = none ∧
    ((7 : Int) ≠ 0 ∧ chrome_time_to_datetime 7 = some (7 - 11644473600 * 1000000)) ∧
    (extract_chrome_history { historyFileExists := true } (.ok [urlRowA]) (fun _ => "t")).result
      = .ok (some (processUrlRows (fun _ => "t") [urlRowA])) := by
  refine ⟨(chrome_extract_filters_sorts_converts (fun _ => "t") [urlRowA]).2.2.1,
    ⟨by decide, (chrome_extract_filters_sorts_converts (fun _ => "t") [urlRowA]).2.2.2.1 7 (by decide)⟩,
    (chrome_extract_filters_sorts_converts (fun _ => "t") [urlRowA]).2.1
      { historyFileExists := true } rfl⟩

/-!
## C9
-/

/-- C9: with more than 100 extracted messages, exactly the transforms of the first
100 messages of the extracted set are submitted to the remote insert — the
submitted row list is the image of take 100 and has length exactly 100. -/
theorem imessage_cap_first_100 :
    ∀ (st : IMStore) (imessages : List IMessage), 100 < imessages.length →
    (save_imessages_to_supabase st imessages).2 = (imessages.take 100).map imessageDbRow ∧
    (save_imessages_to_supabase st imessages).2.length = 100 ∧
    (save_imessages_to_supabase st imessages).1
      = st.insertResult ((imessages.take 100).map imessageDbRow) := by
  intro st imessages h
  refine ⟨rfl, ?_, rfl⟩
  show ((imessages.take 100).map imessageDbRow).length = 100
  rw [List.length_map, List.length_take]
  omega

/-- C9 witness: 150 extracted messages yield exactly 100 submitted rows. -/
theorem imessage_cap_first_100_witness :
    100 < (List.replicate 150 imsgSample).length ∧
    (save_imessages_to_supabase imStoreOk (List.replicate 150 imsgSample)).2.length = 100 := by
  have hlen : (List.replicate 150 imsgSample).length = 150 := List.length_replicate 150 imsgSample
  refine ⟨by rw [hlen]; omega, ?_⟩
  exact (imessage_cap_first_100 imStoreOk (List.replicate 150 imsgSample)
    (by rw [hlen]; omega)).2.1

/-!
## C10
-/

/-- C10: whenever save_imessages_data writes a local JSON file — the store is
unconfigured, or the insert returned no rows — the file holds the entire extracted
message list, including any messages beyond the first 100: the cap applies only to
the remote write. -/
theorem imessage_local_file_holds_all :
    ∀ (env : SupaEnv) (st : IMStore) (ts : String) (imessages : List IMessage)
      (f : JsonFile IMessage),
    save_imessages_data env st ts imessages = .ok (.localFile f) →
    f.contents = imessages := by
  intro env st ts imessages f hsave
  unfold save_imessages_data at hsave
  rcases hg : get_supabase_client env st.selectResult with e | b
  · rw [hg] at hsave; cases hsave
  · rw [hg] at hsave
    cases b with
    | false =>
      simp only [Except.ok.injEq, IMOutcome.localFile.injEq] at hsave
      subst hsave
      rfl
    | true =>
      rcases hi : (save_imessages_to_supabase st imessages).1 with e | data
      · rw [hi] at hsave; cases hsave
      · rw [hi] at hsave
        by_cases hd : data.isEmpty
        · simp only [hd, if_true, Except.ok.injEq, IMOutcome.localFile.injEq] at hsave
          subst hsave
          rfl
        · simp [hd] at hsave

/-- C10 witness: a concrete unconfigured run over 150 messages writes all 150 to
the local file. -/
theorem imessage_local_file_holds_all_witness :
    save_imessages_data envNoCreds imStoreOk "TS" (List.replicate 150 imsgSample)
      = .ok (.localFile (save_data_to_json (List.replicate 150 imsgSample)
          "imessages" "imessage/data" "" "TS")) ∧
    (save_data_to_json (List.replicate 150 imsgSample)
        "imessages" "imessage/data" "" "TS").contents
      = List.replicate 150 imsgSample := by
  refine ⟨rfl, ?_⟩
  exact imessage_local_file_holds_all envNoCreds imStoreOk "TS"
    (List.replicate 150 imsgSample)
    (save_data_to_json (List.replicate 150 imsgSample) "imessages" "imessage/data" "" "TS")
    rfl
